import Mathlib

/-!
Verification of the blob-storage client contract of `regression/storage.js`.

This development embeds, in Lean 4, the contract of the `BlobBucketClient`
exercised by the regression suite `src/regression/storage.js`: write from
file/buffer/stream sources, streamed read, copy, remove, and cursor-based
paginated listing.  The client library itself is not part of the shown
sources, so the store operations are modelled from the specification's
words (each such definition carries a doc comment starting
`Modelled from the spec:`); the test suite's own logic (local MD5
computation, callback wiring, assertion semantics) is translated directly
from `storage.js`.

Bytes are `Nat` values below 256; machine words are `Nat` reduced modulo
`2^32` where overflow matters.
-/

namespace Storage

/-- A byte sequence (each entry is a byte, `< 256`). -/
abbrev Bytes := List Nat

/-! ## MD5 (RFC 1321)

Modelled from the spec: the store's content digest is "the MD5 digest of the
exact bytes transmitted (base64-encoded)"; the test computes the same digest
locally via `crypto.createHash('md5')`.  Neither implementation is in the
shown sources, so MD5 is given here in full from RFC 1321. -/

/-- The word modulus of MD5, that is `2^32`. -/
def w32 : Nat := 4294967296

/-- Left-rotation of a 32-bit word (input assumed `< 2^32`). -/
def rotl32 (x n : Nat) : Nat :=
  ((x <<< n) ||| (x >>> (32 - n))) % w32

/-- The 64 MD5 sine-derived round constants `K[i] = ⌊|sin(i+1)| · 2^32⌋`. -/
def md5K : List Nat :=
  [0xd76aa478, 0xe8c7b756, 0x242070db, 0xc1bdceee,
   0xf57c0faf, 0x4787c62a, 0xa8304613, 0xfd469501,
   0x698098d8, 0x8b44f7af, 0xffff5bb1, 0x895cd7be,
   0x6b901122, 0xfd987193, 0xa679438e, 0x49b40821,
   0xf61e2562, 0xc040b340, 0x265e5a51, 0xe9b6c7aa,
   0xd62f105d, 0x02441453, 0xd8a1e681, 0xe7d3fbc8,
   0x21e1cde6, 0xc33707d6, 0xf4d50d87, 0x455a14ed,
   0xa9e3e905, 0xfcefa3f8, 0x676f02d9, 0x8d2a4c8a,
   0xfffa3942, 0x8771f681, 0x6d9d6122, 0xfde5380c,
   0xa4beea44, 0x4bdecfa9, 0xf6bb4b60, 0xbebfbc70,
   0x289b7ec6, 0xeaa127fa, 0xd4ef3085, 0x04881d05,
   0xd9d4d039, 0xe6db99e5, 0x1fa27cf8, 0xc4ac5665,
   0xf4292244, 0x432aff97, 0xab9423a7, 0xfc93a039,
   0x655b59c3, 0x8f0ccc92, 0xffeff47d, 0x85845dd1,
   0x6fa87e4f, 0xfe2ce6e0, 0xa3014314, 0x4e0811a1,
   0xf7537e82, 0xbd3af235, 0x2ad7d2bb, 0xeb86d391]

/-- The 64 per-round left-rotation amounts of MD5. -/
def md5S : List Nat :=
  [7, 12, 17, 22, 7, 12, 17, 22, 7, 12, 17, 22, 7, 12, 17, 22,
   5,  9, 14, 20, 5,  9, 14, 20, 5,  9, 14, 20, 5,  9, 14, 20,
   4, 11, 16, 23, 4, 11, 16, 23, 4, 11, 16, 23, 4, 11, 16, 23,
   6, 10, 15, 21, 6, 10, 15, 21, 6, 10, 15, 21, 6, 10, 15, 21]

/-- MD5 padding: append `0x80`, zero bytes up to 56 mod 64, then the bit
length as 8 little-endian bytes. -/
def md5Pad (msg : Bytes) : Bytes :=
  let len := msg.length
  let zeros := (120 - ((len + 1) % 64)) % 64
  let bitLen := (len * 8) % (w32 * w32)
  msg ++ [0x80] ++ List.replicate zeros 0 ++
    (List.range 8).map (fun i => (bitLen >>> (8 * i)) % 256)

/-- Interpret 4 consecutive bytes of a block, starting at byte `4*j`, as a
little-endian 32-bit word. -/
def leWord (block : Bytes) (j : Nat) : Nat :=
  block.getD (4 * j) 0 + block.getD (4 * j + 1) 0 * 256 +
    block.getD (4 * j + 2) 0 * 65536 + block.getD (4 * j + 3) 0 * 16777216

/-- One of the 64 MD5 rounds, acting on the state `(a, b, c, d)` with the
16-word message schedule `m`. -/
def md5Round (m : List Nat) (st : Nat × Nat × Nat × Nat) (i : Nat) :
    Nat × Nat × Nat × Nat :=
  let (a, b, c, d) := st
  let fg : Nat × Nat :=
    if i < 16 then ((b &&& c) ||| ((b ^^^ (w32 - 1)) &&& d), i)
    else if i < 32 then ((d &&& b) ||| ((d ^^^ (w32 - 1)) &&& c), (5 * i + 1) % 16)
    else if i < 48 then (b ^^^ c ^^^ d, (3 * i + 5) % 16)
    else (c ^^^ (b ||| (d ^^^ (w32 - 1))), (7 * i) % 16)
  let t := (fg.1 + a + md5K.getD i 0 + m.getD fg.2 0) % w32
  (d, (b + rotl32 t (md5S.getD i 0)) % w32, b, c)

/-- Process one 64-byte block: run the 64 rounds and add the result to the
incoming state, componentwise modulo `2^32`. -/
def md5Block (st : Nat × Nat × Nat × Nat) (block : Bytes) :
    Nat × Nat × Nat × Nat :=
  let m := (List.range 16).map (leWord block)
  let (a, b, c, d) := (List.range 64).foldl (md5Round m) st
  ((st.1 + a) % w32, (st.2.1 + b) % w32, (st.2.2.1 + c) % w32,
    (st.2.2.2 + d) % w32)

/-- Split a byte list into consecutive 64-byte chunks (`fuel` bounds the
recursion; callers pass at least `l.length`). -/
def chunk64 (fuel : Nat) (l : Bytes) : List Bytes :=
  match fuel with
  | 0 => []
  | fuel + 1 =>
    match l with
    | [] => []
    | _ => l.take 64 :: chunk64 fuel (l.drop 64)

/-- A 32-bit word as 4 little-endian bytes. -/
def wordLEBytes (x : Nat) : Bytes :=
  [x % 256, (x >>> 8) % 256, (x >>> 16) % 256, (x >>> 24) % 256]

/-- The MD5 digest of a byte sequence, as 16 bytes. -/
def md5 (msg : Bytes) : Bytes :=
  let padded := md5Pad msg
  let (a, b, c, d) := (chunk64 padded.length padded).foldl md5Block
    (0x67452301, 0xefcdab89, 0x98badcfe, 0x10325476)
  wordLEBytes a ++ wordLEBytes b ++ wordLEBytes c ++ wordLEBytes d

/-- The standard base64 alphabet. -/
def base64Alphabet : List Char :=
  "ABCDEFGHIJKLMNOPQRSTUVWXYZabcdefghijklmnopqrstuvwxyz0123456789+/".toList

/-- Base64-encode a byte sequence (RFC 4648, with `=` padding).  `fuel`
bounds the recursion; callers pass at least `l.length`. -/
def base64Chunks (fuel : Nat) (l : Bytes) : List Char :=
  match fuel with
  | 0 => []
  | fuel + 1 =>
    match l with
    | [] => []
    | [b0] =>
      [base64Alphabet.getD (b0 >>> 2) 'A',
       base64Alphabet.getD ((b0 % 4) <<< 4) 'A', '=', '=']
    | [b0, b1] =>
      [base64Alphabet.getD (b0 >>> 2) 'A',
       base64Alphabet.getD (((b0 % 4) <<< 4) + (b1 >>> 4)) 'A',
       base64Alphabet.getD ((b1 % 16) <<< 2) 'A', '=']
    | b0 :: b1 :: b2 :: rest =>
      base64Alphabet.getD (b0 >>> 2) 'A' ::
      base64Alphabet.getD (((b0 % 4) <<< 4) + (b1 >>> 4)) 'A' ::
      base64Alphabet.getD (((b1 % 16) <<< 2) + (b2 >>> 6)) 'A' ::
      base64Alphabet.getD (b2 % 64) 'A' :: base64Chunks fuel rest

/-- Base64 encoding of a byte sequence as a string. -/
def base64Encode (l : Bytes) : String :=
  String.mk (base64Chunks l.length l)

/-- The base64-encoded MD5 digest of a byte sequence — the `md5Hash` format
of the store and the `digest('base64')` of the test's local hash. -/
def md5Base64 (msg : Bytes) : String :=
  base64Encode (md5 msg)

/-! ## The blob store model

Modelled from the spec: the `BlobBucketClient` component (§4.1).  The
client library (`gcloud.storage.Bucket`) is not among the shown sources —
only its regression tests are — so the operations `write`,
`createReadStream`, `copy`, `remove` and `list` are defined here from the
specification's observable contract.  The store state is the bucket's
objects in a stable, store-defined order (the `ListResult` order of §3). -/

/-- Errors of the client's taxonomy (§7) that the modelled operations can
report. -/
inductive StoreErr where
  | notFound
  | invalidArgument
  | storeError
  deriving DecidableEq, Repr

/-- A stored blob's externally visible identity: its `name` and the
base64-encoded MD5 `md5Hash` of its content. -/
structure BlobObject where
  name : String
  md5Hash : String
  deriving DecidableEq, Repr

/-- The bucket state: the stored objects as `(name, content)` pairs, in the
store-defined stable listing order.  Well-formed states have pairwise
distinct names (`Store.wf`). -/
structure Store where
  objects : List (String × Bytes)
  deriving DecidableEq, Repr

/-- Well-formedness: object names are pairwise distinct. -/
def Store.wf (st : Store) : Prop :=
  (st.objects.map Prod.fst).Nodup

/-- Modelled from the spec: a `WriteSource` is "a tagged union — {file path,
in-memory buffer, readable byte stream} — exactly one is supplied per write
call".  A stream delivers its content as a list of chunks. -/
inductive WriteSource where
  | file (path : String)
  | buffer (data : Bytes)
  | stream (chunks : List Bytes)
  deriving DecidableEq, Repr

/-- The local filesystem, as a map from paths to optional file contents. -/
abbrev FileSystem := String → Option Bytes

/-- The byte sequence a `WriteSource` delivers: the file's content for a
file path, the buffer itself, or the concatenation of a stream's chunks.
`none` when a file source names a missing file. -/
def WriteSource.bytes (src : WriteSource) (fs : FileSystem) : Option Bytes :=
  match src with
  | .file p => fs p
  | .buffer d => some d
  | .stream cs => some cs.flatten

/-- The `BlobObject` the store reports for a freshly written entry. -/
def toBlobObject (e : String × Bytes) : BlobObject :=
  ⟨e.1, md5Base64 e.2⟩

/-- Modelled from the spec: `write(name, source, options)` "streams/reads
the source content to the remote store under key `name`, overwriting any
prior object of the same name" and on success returns a `BlobObject` whose
`md5Hash` is the base64 MD5 of the transmitted bytes.  A file source whose
file cannot be read surfaces as a `StoreError`. -/
def Store.write (st : Store) (name : String) (src : WriteSource)
    (fs : FileSystem) : Except StoreErr (Store × BlobObject) :=
  match src.bytes fs with
  | none => .error .storeError
  | some b =>
    .ok (⟨(name, b) :: st.objects.filter (fun e => e.1 != name)⟩,
         ⟨name, md5Base64 b⟩)

/-- Modelled from the spec: `createReadStream(name)` produces the remote
object's bytes, or fails with `NotFound` if no such object exists.  The
stream is represented by the full byte sequence it delivers to a sink. -/
def Store.createReadStream (st : Store) (name : String) :
    Except StoreErr Bytes :=
  match st.objects.lookup name with
  | some b => .ok b
  | none => .error .notFound

/-- Modelled from the spec: `copy(sourceName, {name: destName})` "creates
`destName` as a duplicate of `sourceName`'s current content … Fails with
`NotFound` if source is absent … Does not delete the source." -/
def Store.copy (st : Store) (srcName destName : String) :
    Except StoreErr Store :=
  match st.objects.lookup srcName with
  | none => .error .notFound
  | some b =>
    .ok ⟨(destName, b) :: st.objects.filter (fun e => e.1 != destName)⟩

/-- Modelled from the spec: `remove(name)` deletes the named object;
"removing a nonexistent object is a reportable `NotFound` condition, not a
silent no-op". -/
def Store.remove (st : Store) (name : String) : Except StoreErr Store :=
  match st.objects.lookup name with
  | some _ => .ok ⟨st.objects.filter (fun e => e.1 != name)⟩
  | none => .error .notFound

/-- Modelled from the spec: a `ListQuery` carries an optional positive
`maxResults` page bound and an opaque continuation position into the
store's stable listing order (`0` on a first call, which passes no
token). -/
structure ListQuery where
  maxResults : Option Nat
  pageToken : Nat
  deriving DecidableEq, Repr

/-- The store's default page size, used when no `maxResults` is given
("list entire bucket up to store default page size"). -/
def defaultPageSize : Nat := 1000

/-- The effective page size of a query. -/
def pageSizeOf (q : Option ListQuery) : Nat :=
  match q with
  | none => defaultPageSize
  | some q => q.maxResults.getD defaultPageSize

/-- Modelled from the spec: `list(query)` returns one page of
`BlobObject`s in the store-defined order together with `nextQuery`: a
continuation token when more results exist, `null` (here `none`) when the
listing is exhausted.  Passing a returned token resumes exactly where the
prior page ended. -/
def Store.list (st : Store) (q : Option ListQuery) :
    List BlobObject × Option ListQuery :=
  let offset := match q with | none => 0 | some q => q.pageToken
  let rest := st.objects.drop offset
  let page := rest.take (pageSizeOf q)
  let next : Option ListQuery :=
    if page.length < rest.length then
      some ⟨(q.bind ListQuery.maxResults), offset + page.length⟩
    else none
  (page.map toBlobObject, next)

/-! ## The test suite's own computations (translated from `storage.js`) -/

/-- The state of `crypto.createHash('md5')` as used in `storage.js`
lines 37–48: semantically, the bytes fed to it so far. -/
structure Md5Sum where
  acc : Bytes
  deriving DecidableEq, Repr

/-- Line 41, `md5sum.update(d)`: absorb one chunk. -/
def Md5Sum.update (h : Md5Sum) (d : Bytes) : Md5Sum :=
  ⟨h.acc ++ d⟩

/-- Line 45, `md5sum.digest('base64')`: the base64 MD5 of all absorbed
bytes. -/
def Md5Sum.digestBase64 (h : Md5Sum) : String :=
  md5Base64 h.acc

/-- The before-hook of `storage.js` lines 37–48: stream the logo file's
chunks through an incremental MD5, then take the base64 digest.  This is
the suite's locally computed `logoFileMd5Hash`. -/
def logoFileMd5Hash (chunks : List Bytes) : String :=
  (chunks.foldl Md5Sum.update ⟨[]⟩).digestBase64

/-! ### JavaScript loose equality between a `Buffer` and a string

`storage.js` line 90 runs `assert.equal(data, fileContent)` where `data` is
the `Buffer` returned by `fs.readFile` and `fileContent` the string
`'Hello World'`.  `assert.equal` uses `==`, which coerces the `Buffer`
through its `toString()` — UTF-8 decoding with U+FFFD replacement of
invalid sequences — and then compares strings. -/

/-- The Unicode replacement character U+FFFD. -/
def replChar : Char := Char.ofNat 0xFFFD

/-- Is a byte a UTF-8 continuation byte (`0x80`–`0xBF`)? -/
def isCont (b : Nat) : Bool := 128 ≤ b && b ≤ 191

/-- Valid second byte of a 3-byte sequence, given its lead byte (excludes
overlong encodings and surrogates). -/
def isCont3 (b b2 : Nat) : Bool :=
  if b = 0xE0 then 0xA0 ≤ b2 && b2 ≤ 0xBF
  else if b = 0xED then 0x80 ≤ b2 && b2 ≤ 0x9F
  else isCont b2

/-- Valid second byte of a 4-byte sequence, given its lead byte (excludes
overlong encodings and codepoints above U+10FFFF). -/
def isCont4 (b b2 : Nat) : Bool :=
  if b = 0xF0 then 0x90 ≤ b2 && b2 ≤ 0xBF
  else if b = 0xF4 then 0x80 ≤ b2 && b2 ≤ 0x8F
  else isCont b2

/-- UTF-8 decoding with replacement, bounded by `fuel` (each step consumes
at least one byte, so `fuel ≥ l.length` suffices): well-formed sequences
decode to their codepoint; an ill-formed lead or continuation yields U+FFFD
and decoding resumes after the offending lead byte. -/
def utf8DecodeGo : Nat → Bytes → List Char
  | 0, _ => []
  | _ + 1, [] => []
  | fuel + 1, b :: rest =>
    if b < 0x80 then Char.ofNat b :: utf8DecodeGo fuel rest
    else if 0xC2 ≤ b && b ≤ 0xDF then
      match rest with
      | b2 :: r =>
        if isCont b2 then
          Char.ofNat ((b - 0xC0) * 64 + (b2 - 0x80)) :: utf8DecodeGo fuel r
        else replChar :: utf8DecodeGo fuel rest
      | [] => [replChar]
    else if 0xE0 ≤ b && b ≤ 0xEF then
      match rest with
      | b2 :: b3 :: r =>
        if isCont3 b b2 && isCont b3 then
          Char.ofNat ((b - 0xE0) * 4096 + (b2 - 0x80) * 64 + (b3 - 0x80)) ::
            utf8DecodeGo fuel r
        else replChar :: utf8DecodeGo fuel rest
      | _ => replChar :: utf8DecodeGo fuel rest
    else if 0xF0 ≤ b && b ≤ 0xF4 then
      match rest with
      | b2 :: b3 :: b4 :: r =>
        if isCont4 b b2 && isCont b3 && isCont b4 then
          Char.ofNat ((b - 0xF0) * 262144 + (b2 - 0x80) * 4096 +
            (b3 - 0x80) * 64 + (b4 - 0x80)) :: utf8DecodeGo fuel r
        else replChar :: utf8DecodeGo fuel rest
      | _ => replChar :: utf8DecodeGo fuel rest
    else replChar :: utf8DecodeGo fuel rest

/-- UTF-8 decoding with replacement of a whole byte sequence. -/
def utf8DecodeReplace (l : Bytes) : List Char :=
  utf8DecodeGo l.length l

/-- The coercion `Buffer.prototype.toString()`: UTF-8 decoding with replacement. -/
def bufferToString (data : Bytes) : String :=
  String.mk (utf8DecodeReplace data)

/-- UTF-8 encoding of one character. -/
def utf8EncodeChar (c : Char) : Bytes :=
  let n := c.toNat
  if n < 0x80 then [n]
  else if n < 0x800 then [0xC0 + n / 64, 0x80 + n % 64]
  else if n < 0x10000 then
    [0xE0 + n / 4096, 0x80 + (n / 64) % 64, 0x80 + n % 64]
  else
    [0xF0 + n / 262144, 0x80 + (n / 4096) % 64, 0x80 + (n / 64) % 64,
     0x80 + n % 64]

/-- UTF-8 encoding of a string: the bytes a JavaScript string becomes when
written out. -/
def utf8Encode (s : String) : Bytes :=
  (s.data.map utf8EncodeChar).flatten

/-- From `storage.js` line 90: the check `assert.equal(data, fileContent)`
actually imposes — JavaScript loose equality between a `Buffer` and a
string, i.e. equality after coercing the buffer through `toString()`. -/
def bufferLooseEqString (data : Bytes) (s : String) : Bool :=
  bufferToString data == s

/-! ### The copy test's callback wiring (C7) -/

/-- Whether Node's `assert.ifError(e)` passes: it throws on any truthy
argument, so it passes exactly when the error is absent. -/
def ifErrorPasses (e : Option StoreErr) : Bool :=
  e.isNone

/-- From `storage.js` lines 124–125 (and identically lines 145–148): the
callback passed to `bucket.copy` declares no parameters, so the `err` in
its `assert.ifError(err)` resolves by lexical scoping to the enclosing
write callback's `err`; the error `bucket.copy` reports to the callback is
bound to nothing. -/
def copyCallbackAssertPasses (errWrite : Option StoreErr)
    (_errCopy : Option StoreErr) : Bool :=
  ifErrorPasses errWrite

/-- From `storage.js` lines 116–135: the copy test's four operations in
order (write, copy, remove copy, remove original), each reporting an
optional error; the result is whether every assertion executed by the test
passes.  The copy step's assertion is `copyCallbackAssertPasses`. -/
def copyTestAssertionsPass (errWrite errCopy errRemoveCopy errRemoveFile :
    Option StoreErr) : Bool :=
  ifErrorPasses errWrite && copyCallbackAssertPasses errWrite errCopy &&
    ifErrorPasses errRemoveCopy && ifErrorPasses errRemoveFile

/-- An empty filesystem (used by buffer/stream sources, which never touch
the filesystem). -/
def emptyFs : FileSystem := fun _ => none

/-- The byte content of the string `'Hello World'` written by the buffer
test (`storage.js` line 75). -/
def helloWorldBytes : Bytes := utf8Encode "Hello World"

end Storage

namespace Storage

/-! ## Helper lemmas about lookup and filter on the object list -/

/-- Filtering out the entries of key `n` does not change the lookup of a
different key `s`. -/
theorem lookup_filter_ne (l : List (String × Bytes)) (s n : String)
    (h : s ≠ n) :
    (l.filter (fun e => e.1 != n)).lookup s = l.lookup s := by
  induction l with
  | nil => rfl
  | cons a t ih =>
    obtain ⟨k, v⟩ := a
    by_cases h1 : k = n
    · subst h1
      have hs : (s == k) = false := by simp [h]
      simp [List.filter_cons, List.lookup, hs, ih]
    · have hk : (k != n) = true := by simp [h1]
      by_cases h2 : s = k
      · subst h2
        simp [List.filter_cons, hk, List.lookup]
      · have hs : (s == k) = false := by simp [h2]
        simp [List.filter_cons, hk, List.lookup, hs, ih]

/-- Filtering out the entries of a key that is absent is the identity. -/
theorem filter_ne_of_fresh (l : List (String × Bytes)) (n : String)
    (h : l.lookup n = none) :
    l.filter (fun e => e.1 != n) = l := by
  induction l with
  | nil => rfl
  | cons a t ih =>
    obtain ⟨k, v⟩ := a
    by_cases h1 : n = k
    · subst h1
      simp [List.lookup] at h
    · have hk : (k != n) = true := by
        simp [bne]
        exact fun hkn => h1 hkn.symm
      have ht : t.lookup n = none := by
        have hs : (n == k) = false := by simp [h1]
        simpa [List.lookup, hs] using h
      simp [List.filter_cons, hk, ih ht]

/-- A key's lookup succeeds exactly when the key occurs in the key list. -/
theorem lookup_isSome_iff (l : List (String × Bytes)) (n : String) :
    (l.lookup n).isSome = true ↔ n ∈ l.map Prod.fst := by
  induction l with
  | nil => simp [List.lookup]
  | cons a t ih =>
    obtain ⟨k, v⟩ := a
    by_cases h1 : n = k
    · subst h1
      simp [List.lookup]
    · have hs : (n == k) = false := by simp [h1]
      simp [List.lookup, hs, h1, ih]

/-! ## C2: read-after-write round trip -/

/-- C2: for any content written under a name via `bucket.write`, reading
that name back via `bucket.createReadStream` and draining the stream into
a sink yields content byte-identical to what was written. -/
theorem c2_read_after_write (st : Store) (name : String) (data : Bytes)
    (fs : FileSystem) (st' : Store) (obj : BlobObject)
    (h : st.write name (.buffer data) fs = .ok (st', obj)) :
    st'.createReadStream name = .ok data := by
  simp [Store.write, WriteSource.bytes] at h
  obtain ⟨h1, _⟩ := h
  subst h1
  simp [Store.createReadStream, List.lookup]

/-- Witness for C2: writing the buffer `'Hello World'` under `MyBuffer`
into an empty bucket, then reading `MyBuffer` back, yields exactly the
written bytes. -/
theorem c2_read_after_write_witness :
    (Store.mk ((("MyBuffer", helloWorldBytes)) :: [])).createReadStream
      "MyBuffer" = .ok helloWorldBytes :=
  c2_read_after_write ⟨[]⟩ "MyBuffer" helloWorldBytes emptyFs _
    ⟨"MyBuffer", md5Base64 helloWorldBytes⟩ rfl

/-! ## C5: remove reports NotFound on absent names, success on present -/

/-- C5: `bucket.remove(name)` reports `NotFound` when no object named
`name` exists — never a silent no-op — and succeeds on an object that was
just created (written) and not yet removed. -/
theorem c5_remove_notfound_or_succeeds (st : Store) (name : String) :
    (st.objects.lookup name = none → st.remove name = .error .notFound)
    ∧ (∀ src fs st' obj, st.write name src fs = .ok (st', obj) →
        ∃ st'', st'.remove name = .ok st'') := by
  constructor
  · intro h
    simp [Store.remove, h]
  · intro src fs st' obj h
    unfold Store.write at h
    cases hb : src.bytes fs with
    | none => rw [hb] at h; cases h
    | some b =>
      rw [hb] at h
      simp at h
      obtain ⟨h1, _⟩ := h
      subst h1
      exact ⟨⟨st.objects.filter (fun e => e.1 != name)⟩,
        by simp [Store.remove, List.lookup]⟩

/-- Witness for C5: in the empty bucket, removing `CloudLogo` reports
`NotFound`; after writing `CloudLogo` there, removing it succeeds. -/
theorem c5_remove_witness :
    (Store.mk []).remove "CloudLogo" = .error .notFound
    ∧ ∃ st'', (Store.mk (("CloudLogo", helloWorldBytes) :: [])).remove
        "CloudLogo" = .ok st'' :=
  ⟨(c5_remove_notfound_or_succeeds ⟨[]⟩ "CloudLogo").1 rfl,
   (c5_remove_notfound_or_succeeds ⟨[]⟩ "CloudLogo").2
     (.buffer helloWorldBytes) emptyFs _ ⟨"CloudLogo", md5Base64 helloWorldBytes⟩ rfl⟩

/-! ## C7: the copy test's callback never sees copy's own error -/

/-- C7: in the source's copy tests, the callback passed to `bucket.copy`
takes no error parameter, and the `assert.ifError` inside it refers to the
enclosing write callback's `err`; hence the copy-callback assertion's
outcome is exactly the write assertion's outcome, the test's assertions
behave identically for every error value copy could report, and a copy
failure can never cause the assertion in the copy callback to fail. -/
theorem c7_copy_error_unchecked :
    (∀ errWrite errCopy, copyCallbackAssertPasses errWrite errCopy
        = ifErrorPasses errWrite)
    ∧ (∀ w e₁ e₂ r₁ r₂, copyTestAssertionsPass w e₁ r₁ r₂
        = copyTestAssertionsPass w e₂ r₁ r₂)
    ∧ (∀ e, copyCallbackAssertPasses none e = true) := by
  refine ⟨fun _ _ => rfl, fun _ _ _ _ _ => rfl, fun _ => rfl⟩

/-! ## C10: the buffer test's final check is loose coercion equality -/

/-- C10: the buffer round-trip test's `assert.equal(data, fileContent)`
imposes exactly that the `Buffer`'s string coercion equals `'Hello World'`
— any read-back content whose string coercion matches passes; the check is
implied by byte-identity with the written string's encoding, and it is
strictly weaker than byte-identity: there is content that passes the
coercion check without being the expected string's bytes. -/
theorem c10_loose_equality_check :
    (∀ data : Bytes, bufferToString data = "Hello World" →
        bufferLooseEqString data "Hello World" = true)
    ∧ bufferLooseEqString (utf8Encode "Hello World") "Hello World" = true
    ∧ (∃ data s, bufferLooseEqString data s = true ∧ data ≠ utf8Encode s) := by
  refine ⟨fun data h => by simp [bufferLooseEqString, h], by decide,
    ⟨[0xFF], "�", by decide, by decide⟩⟩

/-- Witness for C10: the exact UTF-8 bytes of `'Hello World'` pass the
test's coercion check. -/
theorem c10_loose_equality_witness :
    bufferLooseEqString (utf8Encode "Hello World") "Hello World" = true :=
  c10_loose_equality_check.1 (utf8Encode "Hello World") (by decide)

/-! ## C1: the written object's md5Hash is the base64 MD5 of the bytes -/

/-- Folding `Md5Sum.update` over chunks accumulates their concatenation. -/
theorem md5Sum_foldl_acc (chunks : List Bytes) (acc : Bytes) :
    (chunks.foldl Md5Sum.update ⟨acc⟩).acc = acc ++ chunks.flatten := by
  induction chunks generalizing acc with
  | nil => simp
  | cons c t ih => simp [List.foldl_cons, Md5Sum.update, ih]

/-- The suite's chunked local digest equals the one-shot digest of the
concatenated chunks. -/
theorem logoFileMd5Hash_eq (chunks : List Bytes) :
    logoFileMd5Hash chunks = md5Base64 chunks.flatten := by
  simp [logoFileMd5Hash, Md5Sum.digestBase64, md5Sum_foldl_acc]

/-- C1: any two `WriteSource` variants delivering the same byte sequence
both make `bucket.write` succeed with `BlobObject`s whose `md5Hash` is the
base64 MD5 of exactly those bytes; in particular both hashes equal the
digest the suite computes locally by streaming those bytes in chunks. -/
theorem c1_write_md5Hash (fs : FileSystem) (st₁ st₂ : Store)
    (n₁ n₂ : String) (s₁ s₂ : WriteSource) (b : Bytes)
    (h₁ : s₁.bytes fs = some b) (h₂ : s₂.bytes fs = some b) :
    ∃ st₁' o₁ st₂' o₂,
      st₁.write n₁ s₁ fs = .ok (st₁', o₁)
      ∧ st₂.write n₂ s₂ fs = .ok (st₂', o₂)
      ∧ o₁.md5Hash = md5Base64 b ∧ o₂.md5Hash = md5Base64 b
      ∧ ∀ chunks : List Bytes, chunks.flatten = b →
          o₁.md5Hash = logoFileMd5Hash chunks
          ∧ o₂.md5Hash = logoFileMd5Hash chunks := by
  refine ⟨⟨(n₁, b) :: st₁.objects.filter (fun e => e.1 != n₁)⟩,
    ⟨n₁, md5Base64 b⟩, ⟨(n₂, b) :: st₂.objects.filter (fun e => e.1 != n₂)⟩,
    ⟨n₂, md5Base64 b⟩, ?_, ?_, rfl, rfl, ?_⟩
  · unfold Store.write
    rw [h₁]
  · unfold Store.write
    rw [h₂]
  · intro chunks hch
    rw [logoFileMd5Hash_eq, hch]
    exact ⟨rfl, rfl⟩

/-- The path of the logo file written by the suite (`storage.js` line 32). -/
def pathToLogoFile : String := "regression/data/CloudPlatform_128px_Retina.png"

/-- Model content of the logo file used in witnesses (the PNG signature). -/
def logoBytes : Bytes := [137, 80, 78, 71, 13, 10, 26, 10]

/-- The same content as a stream of two chunks. -/
def logoChunks : List Bytes := [[137, 80, 78, 71], [13, 10, 26, 10]]

/-- A filesystem holding the logo file. -/
def logoFs : FileSystem := fun p =>
  if p = pathToLogoFile then some logoBytes else none

/-- Witness for C1: in a concrete filesystem, the file-source and
stream-source writes of the logo bytes both succeed with the base64 MD5 of
those bytes as `md5Hash`. -/
theorem c1_write_md5Hash_witness :
    ∃ st₁' o₁ st₂' o₂,
      (Store.mk []).write "CloudLogo" (.file pathToLogoFile) logoFs
          = .ok (st₁', o₁)
      ∧ (Store.mk []).write "CloudLogo" (.stream logoChunks) logoFs
          = .ok (st₂', o₂)
      ∧ o₁.md5Hash = md5Base64 logoBytes ∧ o₂.md5Hash = md5Base64 logoBytes
      ∧ ∀ chunks : List Bytes, chunks.flatten = logoBytes →
          o₁.md5Hash = logoFileMd5Hash chunks
          ∧ o₂.md5Hash = logoFileMd5Hash chunks :=
  c1_write_md5Hash logoFs ⟨[]⟩ ⟨[]⟩ "CloudLogo" "CloudLogo"
    (.file pathToLogoFile) (.stream logoChunks) logoBytes (by decide)
    (by decide)

/-! ## C3: pagination over a bucket of exactly 3 objects -/

/-- C3: for a bucket containing exactly 3 objects, `list` with no query
returns all 3 with a null `nextQuery`; `list` with `maxResults: 2` returns
exactly 2 and the non-null continuation `⟨some 2, 2⟩`; and `list` with that
continuation returns exactly the 1 remaining object (the two pages
concatenate to the whole listing) and a null `nextQuery`. -/
theorem c3_pagination_three (st : Store) (h3 : st.objects.length = 3) :
    (st.list none).1.length = 3 ∧ (st.list none).2 = none
    ∧ (st.list (some ⟨some 2, 0⟩)).1.length = 2
    ∧ (st.list (some ⟨some 2, 0⟩)).2 = some ⟨some 2, 2⟩
    ∧ (st.list (some ⟨some 2, 2⟩)).1 = (st.objects.drop 2).map toBlobObject
    ∧ (st.list (some ⟨some 2, 2⟩)).1.length = 1
    ∧ (st.list (some ⟨some 2, 0⟩)).1 ++ (st.list (some ⟨some 2, 2⟩)).1
        = st.objects.map toBlobObject
    ∧ (st.list (some ⟨some 2, 2⟩)).2 = none := by
  obtain ⟨objs⟩ := st
  simp only at h3
  obtain ⟨a, b, c, habc⟩ := List.length_eq_three.mp h3
  subst habc
  simp [Store.list, pageSizeOf, defaultPageSize]

/-- Witness for C3: the pagination facts hold on a concrete bucket of
three objects. -/
theorem c3_pagination_three_witness :
    ((Store.mk [("CloudLogo1", logoBytes), ("CloudLogo2", logoBytes),
      ("CloudLogo3", logoBytes)]).list none).1.length = 3
    ∧ ((Store.mk [("CloudLogo1", logoBytes), ("CloudLogo2", logoBytes),
      ("CloudLogo3", logoBytes)]).list (some ⟨some 2, 0⟩)).1.length = 2 := by
  obtain ⟨-, -, h2, -⟩ := c3_pagination_three ⟨[("CloudLogo1", logoBytes),
    ("CloudLogo2", logoBytes), ("CloudLogo3", logoBytes)]⟩ rfl
  exact ⟨(c3_pagination_three ⟨[("CloudLogo1", logoBytes),
    ("CloudLogo2", logoBytes), ("CloudLogo3", logoBytes)]⟩ rfl).1, h2⟩

/-! ## C4: chained pagination covers the bucket exactly once -/

/-- Modelled from the spec: a completed chain of `list` calls in which each
call after the first passes the `nextQuery` token returned by the previous
call, stopping when `nextQuery` is null; the value is the concatenation of
the returned pages.  `fuel` bounds the number of calls. -/
def Store.listFrom (st : Store) : Nat → Option ListQuery → List BlobObject
  | 0, _ => []
  | fuel + 1, q =>
    match (st.list q).2 with
    | none => (st.list q).1
    | some q' => (st.list q).1 ++ st.listFrom fuel (some q')

/-- A chain started at continuation position `offset` returns exactly the
objects from `offset` on, in order, provided the page size is positive and
the fuel covers the remaining objects. -/
theorem listFrom_some_eq (st : Store) (mr : Option Nat)
    (hps : 1 ≤ mr.getD defaultPageSize) :
    ∀ fuel offset, st.objects.length ≤ offset + fuel →
      st.listFrom fuel (some ⟨mr, offset⟩)
        = (st.objects.drop offset).map toBlobObject := by
  intro fuel
  induction fuel with
  | zero =>
    intro offset h
    have hd : st.objects.drop offset = [] :=
      List.drop_eq_nil_of_le (by omega)
    simp [Store.listFrom, hd]
  | succ fuel ih =>
    intro offset h
    by_cases hlt : ((st.objects.drop offset).take
        (pageSizeOf (some ⟨mr, offset⟩))).length
        < (st.objects.drop offset).length
    · have hmin : ((st.objects.drop offset).take
          (pageSizeOf (some ⟨mr, offset⟩))).length
          = pageSizeOf (some ⟨mr, offset⟩) := by
        rw [List.length_take] at hlt ⊢
        omega
      have hps' : 1 ≤ pageSizeOf (some ⟨mr, offset⟩) := by
        simpa [pageSizeOf] using hps
      have hrec := ih (offset + pageSizeOf (some ⟨mr, offset⟩)) (by
        rw [List.length_take, List.length_drop] at hlt hmin
        omega)
      rw [hmin] at hlt
      have hnext : (st.list (some ⟨mr, offset⟩)).2
          = some ⟨mr, offset + pageSizeOf (some ⟨mr, offset⟩)⟩ := by
        have hb : (some (⟨mr, offset⟩ : ListQuery)).bind ListQuery.maxResults
            = mr := rfl
        simp only [Store.list, hb]
        rw [hmin, if_pos hlt]
      have hpage : (st.list (some ⟨mr, offset⟩)).1
          = ((st.objects.drop offset).take
              (pageSizeOf (some ⟨mr, offset⟩))).map toBlobObject := rfl
      simp only [Store.listFrom, hnext, hpage]
      rw [hrec]
      have hdd : st.objects.drop (offset + pageSizeOf (some ⟨mr, offset⟩))
          = (st.objects.drop offset).drop (pageSizeOf (some ⟨mr, offset⟩)) := by
        rw [List.drop_drop]
      rw [hdd, ← List.map_append, List.take_append_drop]
    · have hle : (st.objects.drop offset).length
          ≤ pageSizeOf (some ⟨mr, offset⟩) := by
        rw [List.length_take] at hlt
        omega
      have htake : (st.objects.drop offset).take
          (pageSizeOf (some ⟨mr, offset⟩)) = st.objects.drop offset :=
        List.take_of_length_le hle
      have hnext : (st.list (some ⟨mr, offset⟩)).2 = none := by
        simp only [Store.list]
        rw [htake]
        simp
      have hpage : (st.list (some ⟨mr, offset⟩)).1
          = (st.objects.drop offset).map toBlobObject := by
        show ((st.objects.drop offset).take
            (pageSizeOf (some ⟨mr, offset⟩))).map toBlobObject = _
        rw [htake]
      simp only [Store.listFrom, hnext, hpage]

/-- A first call with no query behaves as a first call with an empty query
(default page size, position 0). -/
theorem listFrom_none_eq (st : Store) (fuel : Nat) :
    st.listFrom fuel none = st.listFrom fuel (some ⟨none, 0⟩) := by
  cases fuel with
  | zero => rfl
  | succ fuel => simp [Store.listFrom, Store.list, pageSizeOf]

/-- C4: for every sequence of `list` calls in which each call after the
first passes the previous call's `nextQuery` (a first call passes no token),
the concatenation of the returned pages is the bucket's full listing, and —
names being unique in a well-formed bucket — it contains every object
exactly once: no duplicates, no skipped entries. -/
theorem c4_pagination_no_dup_no_skip (st : Store) (hwf : st.wf)
    (q₀ : Option ListQuery) (hps : 1 ≤ pageSizeOf q₀)
    (htok : ∀ q, q₀ = some q → q.pageToken = 0)
    (fuel : Nat) (hfuel : st.objects.length ≤ fuel) :
    st.listFrom fuel q₀ = st.objects.map toBlobObject
    ∧ (st.listFrom fuel q₀).Nodup := by
  have hmain : st.listFrom fuel q₀ = st.objects.map toBlobObject := by
    cases q₀ with
    | none =>
      rw [listFrom_none_eq]
      simpa using listFrom_some_eq st none (by simp [defaultPageSize])
        fuel 0 (by omega)
    | some q =>
      obtain ⟨mr, tok⟩ := q
      have ht : tok = 0 := htok _ rfl
      subst ht
      simpa using listFrom_some_eq st mr (by simpa [pageSizeOf] using hps)
        fuel 0 (by omega)
  refine ⟨hmain, ?_⟩
  rw [hmain]
  refine List.Nodup.of_map BlobObject.name ?_
  rw [List.map_map]
  have hcomp : (BlobObject.name ∘ toBlobObject) = Prod.fst :=
    funext fun e => rfl
  rw [hcomp]
  exact hwf

/-- Witness for C4: on a concrete well-formed 3-object bucket, chaining
`list` calls with `maxResults: 2` from the start yields the full listing
with no duplicates. -/
theorem c4_pagination_witness :
    (Store.mk [("CloudLogo1", logoBytes), ("CloudLogo2", logoBytes),
        ("CloudLogo3", logoBytes)]).listFrom 3 (some ⟨some 2, 0⟩)
      = [("CloudLogo1", logoBytes), ("CloudLogo2", logoBytes),
        ("CloudLogo3", logoBytes)].map toBlobObject
    ∧ ((Store.mk [("CloudLogo1", logoBytes), ("CloudLogo2", logoBytes),
        ("CloudLogo3", logoBytes)]).listFrom 3 (some ⟨some 2, 0⟩)).Nodup :=
  c4_pagination_no_dup_no_skip
    ⟨[("CloudLogo1", logoBytes), ("CloudLogo2", logoBytes),
      ("CloudLogo3", logoBytes)]⟩
    (by simp [Store.wf]) (some ⟨some 2, 0⟩) (by simp [pageSizeOf])
    (by intro q hq; cases hq; rfl) 3 (by simp)

/-! ## C6: copy creates an independent object -/

/-- C6: after `copy(src, {name: dest})` succeeds (for distinct names),
the source is unaltered; removing `dest` succeeds and still leaves the
source unaltered; and subsequently removing `src` also succeeds. -/
theorem c6_copy_independent (st : Store) (src dest : String)
    (hne : src ≠ dest) (b : Bytes) (hsrc : st.objects.lookup src = some b) :
    ∃ st', st.copy src dest = .ok st'
      ∧ st'.objects.lookup src = some b
      ∧ ∃ st'', st'.remove dest = .ok st''
        ∧ st''.objects.lookup src = some b
        ∧ ∃ st₃, st''.remove src = .ok st₃ := by
  have hs : (src == dest) = false := by simp [hne]
  have hlf : (st.objects.filter (fun e => e.1 != dest)).lookup src
      = some b := by rw [lookup_filter_ne _ _ _ hne]; exact hsrc
  refine ⟨⟨(dest, b) :: st.objects.filter (fun e => e.1 != dest)⟩, ?_, ?_, ?_⟩
  · simp [Store.copy, hsrc]
  · simp [List.lookup, hs, hlf]
  · refine ⟨⟨st.objects.filter (fun e => e.1 != dest)⟩, ?_, hlf, ?_⟩
    · simp [Store.remove, List.lookup, List.filter_filter, Bool.and_self]
    · refine ⟨⟨(st.objects.filter (fun e => e.1 != dest)).filter
        (fun e => e.1 != src)⟩, ?_⟩
      simp only [Store.remove, hlf]

/-- Witness for C6: concretely, copying `CloudLogo` to `CloudLogoCopy` and
then removing the copy and the original both succeed, the source surviving
the copy's removal. -/
theorem c6_copy_independent_witness :
    ∃ st', (Store.mk [("CloudLogo", logoBytes)]).copy "CloudLogo"
        "CloudLogoCopy" = .ok st'
      ∧ st'.objects.lookup "CloudLogo" = some logoBytes
      ∧ ∃ st'', st'.remove "CloudLogoCopy" = .ok st''
        ∧ st''.objects.lookup "CloudLogo" = some logoBytes
        ∧ ∃ st₃, st''.remove "CloudLogo" = .ok st₃ :=
  c6_copy_independent ⟨[("CloudLogo", logoBytes)]⟩ "CloudLogo"
    "CloudLogoCopy" (by decide) logoBytes (by decide)

/-! ## C8: independent removes in parallel all succeed -/

/-- Sequential execution of `remove` calls, one name after another.  Each
`remove` is a single atomic exchange with the store, so a parallel
execution of independent removes (`async.parallel` in the suite's after
hook) is an execution in some order of the calls; the orders are quantified
in the theorem below. -/
def Store.removeSeq (st : Store) : List String → Except StoreErr Store
  | [] => .ok st
  | n :: ns =>
    match st.remove n with
    | .ok st' => st'.removeSeq ns
    | .error e => .error e

/-- Removing distinct, present names in sequence succeeds at every step. -/
theorem removeSeq_ok (order : List String) : ∀ st : Store, order.Nodup →
    (∀ n ∈ order, (st.objects.lookup n).isSome) →
    ∃ st', st.removeSeq order = .ok st' := by
  induction order with
  | nil => exact fun st _ _ => ⟨st, rfl⟩
  | cons n ns ih =>
    intro st hnd hall
    obtain ⟨b, hb⟩ := Option.isSome_iff_exists.mp
      (hall n (List.mem_cons_self n ns))
    have hrem : st.remove n
        = .ok ⟨st.objects.filter (fun e => e.1 != n)⟩ := by
      simp [Store.remove, hb]
    obtain ⟨st', h'⟩ := ih ⟨st.objects.filter (fun e => e.1 != n)⟩
      (List.nodup_cons.mp hnd).2 (fun m hm => by
        have hmn : m ≠ n := by
          rintro rfl
          exact (List.nodup_cons.mp hnd).1 hm
        simp only [lookup_filter_ne _ _ _ hmn]
        exact hall m (List.mem_cons_of_mem _ hm))
    exact ⟨st', by simp [Store.removeSeq, hrem, h']⟩

/-- C8: when `remove` is invoked in parallel on distinct existing objects,
every interleaving — every order in which the store serialises the atomic
removes — makes all of them succeed; no removal interferes with any
other. -/
theorem c8_parallel_removes (st : Store) (names : List String)
    (hnd : names.Nodup)
    (hall : ∀ n ∈ names, (st.objects.lookup n).isSome) :
    ∀ order : List String, order.Perm names →
      ∃ st', st.removeSeq order = .ok st' := by
  intro order hperm
  exact removeSeq_ok order st (hperm.nodup_iff.mpr hnd)
    (fun n hn => hall n (hperm.mem_iff.mp hn))

/-- Witness for C8: in a concrete bucket holding `CloudLogo1..3`, removing
the three in an order different from the listing order succeeds. -/
theorem c8_parallel_removes_witness :
    ∃ st', (Store.mk [("CloudLogo1", logoBytes), ("CloudLogo2", logoBytes),
        ("CloudLogo3", logoBytes)]).removeSeq
      ["CloudLogo3", "CloudLogo1", "CloudLogo2"] = .ok st' :=
  c8_parallel_removes ⟨[("CloudLogo1", logoBytes), ("CloudLogo2", logoBytes),
      ("CloudLogo3", logoBytes)]⟩
    ["CloudLogo1", "CloudLogo2", "CloudLogo3"] (by decide) (by decide)
    ["CloudLogo3", "CloudLogo1", "CloudLogo2"] (by decide)

/-! ## C9: each test removes every object it created -/

/-- From `storage.js` lines 50–58 (and lines 60–71, 99–114 likewise): a
test that writes one object and removes it; the value is the bucket state
the test leaves behind, or the first error. -/
def writeRemoveTest (st : Store) (name : String) (src : WriteSource)
    (fs : FileSystem) : Except StoreErr Store :=
  match st.write name src fs with
  | .error e => .error e
  | .ok (st', _) => st'.remove name

/-- From `storage.js` lines 73–97: write a buffer, read it back through the
read stream, then remove it. -/
def writeReadRemoveTest (st : Store) (name : String) (data : Bytes)
    (fs : FileSystem) : Except StoreErr Store :=
  match st.write name (.buffer data) fs with
  | .error e => .error e
  | .ok (st', _) =>
    match st'.createReadStream name with
    | .error e => .error e
    | .ok _ => st'.remove name

/-- From `storage.js` lines 116–135: write the original, copy it, remove
the copy, remove the original. -/
def copyTest (st : Store) (name copyName : String) (src : WriteSource)
    (fs : FileSystem) : Except StoreErr Store :=
  match st.write name src fs with
  | .error e => .error e
  | .ok (stA, _) =>
    match stA.copy name copyName with
    | .error e => .error e
    | .ok stB =>
      match stB.remove copyName with
      | .error e => .error e
      | .ok stC => stC.remove name

/-- From `storage.js` lines 138–191: the `list files` block — the before
hook writes `CloudLogo1` and copies it to `CloudLogo2` and `CloudLogo3`,
the tests only call `list` (read-only), and the after hook removes the
three in parallel, i.e. in some serialisation `order`. -/
def listFilesSuite (st : Store) (src : WriteSource) (fs : FileSystem)
    (order : List String) : Except StoreErr Store :=
  match st.write "CloudLogo1" src fs with
  | .error e => .error e
  | .ok (stA, _) =>
    match stA.copy "CloudLogo1" "CloudLogo2" with
    | .error e => .error e
    | .ok stB =>
      match stB.copy "CloudLogo1" "CloudLogo3" with
      | .error e => .error e
      | .ok stC => stC.removeSeq order

/-- Writing a fresh name pushes the entry onto the object list. -/
theorem write_fresh (st : Store) (n : String) (src : WriteSource)
    (fs : FileSystem) (b : Bytes) (hb : src.bytes fs = some b)
    (h : st.objects.lookup n = none) :
    st.write n src fs = .ok (⟨(n, b) :: st.objects⟩, ⟨n, md5Base64 b⟩) := by
  unfold Store.write
  rw [hb, filter_ne_of_fresh _ _ h]

/-- Removing a name that heads the object list and occurs nowhere else
pops exactly that entry. -/
theorem remove_head_fresh (l : List (String × Bytes)) (n : String)
    (b : Bytes) (h : l.lookup n = none) :
    Store.remove ⟨(n, b) :: l⟩ n = .ok ⟨l⟩ := by
  simp [Store.remove, List.lookup, List.filter_cons,
    filter_ne_of_fresh _ _ h]

/-- Copying onto a fresh destination pushes the duplicate entry. -/
theorem copy_fresh (st : Store) (src dest : String) (b : Bytes)
    (hsrc : st.objects.lookup src = some b)
    (hdest : st.objects.lookup dest = none) :
    st.copy src dest = .ok ⟨(dest, b) :: st.objects⟩ := by
  simp [Store.copy, hsrc, filter_ne_of_fresh _ _ hdest]

/-- Removing distinct, present names in sequence succeeds and leaves
exactly the entries whose keys are not among the removed names. -/
theorem removeSeq_filter (order : List String) :
    ∀ l : List (String × Bytes), order.Nodup →
      (∀ n ∈ order, (l.lookup n).isSome) →
      Store.removeSeq ⟨l⟩ order
        = .ok ⟨l.filter (fun e => decide (e.1 ∉ order))⟩ := by
  induction order with
  | nil =>
    intro l _ _
    simp [Store.removeSeq]
  | cons n ns ih =>
    intro l hnd hall
    obtain ⟨b, hb⟩ := Option.isSome_iff_exists.mp
      (hall n (List.mem_cons_self n ns))
    have hrem : Store.remove ⟨l⟩ n
        = .ok ⟨l.filter (fun e => e.1 != n)⟩ := by
      simp [Store.remove, hb]
    have hih := ih (l.filter (fun e => e.1 != n))
      (List.nodup_cons.mp hnd).2 (fun m hm => by
        have hmn : m ≠ n := by
          rintro rfl
          exact (List.nodup_cons.mp hnd).1 hm
        simp only [lookup_filter_ne _ _ _ hmn]
        exact hall m (List.mem_cons_of_mem _ hm))
    have hstep : Store.removeSeq ⟨l⟩ (n :: ns)
        = Store.removeSeq ⟨l.filter (fun e => e.1 != n)⟩ ns := by
      simp [Store.removeSeq, hrem]
    rw [hstep, hih, List.filter_filter]
    have hfun : (fun e : String × Bytes =>
        decide (e.1 ∉ ns) && (e.1 != n))
        = fun e => decide (e.1 ∉ n :: ns) := by
      funext e
      by_cases h1 : e.1 = n
      · simp [h1]
      · by_cases h2 : e.1 ∈ ns
        · simp [h1, h2]
        · simp [h1, h2]
    rw [hfun]

/-- C9: every test of the suite removes each object it wrote or copied
before completing, so — all operations succeeding and the bucket not
already containing the test names — each test (and the `list files` block
under every serialisation of its parallel after-hook removes) leaves the
bucket in exactly the state it found it. -/
theorem c9_cleanup_invariant (st : Store) (fs : FileSystem)
    (src : WriteSource) (b : Bytes) (hb : src.bytes fs = some b)
    (hcl : st.objects.lookup "CloudLogo" = none)
    (hmb : st.objects.lookup "MyBuffer" = none)
    (hcc : st.objects.lookup "CloudLogoCopy" = none)
    (hf1 : st.objects.lookup "CloudLogo1" = none)
    (hf2 : st.objects.lookup "CloudLogo2" = none)
    (hf3 : st.objects.lookup "CloudLogo3" = none) :
    writeRemoveTest st "CloudLogo" src fs = .ok st
    ∧ (∀ data : Bytes, writeReadRemoveTest st "MyBuffer" data fs = .ok st)
    ∧ copyTest st "CloudLogo" "CloudLogoCopy" src fs = .ok st
    ∧ ∀ order : List String,
        order.Perm ["CloudLogo1", "CloudLogo2", "CloudLogo3"] →
        listFilesSuite st src fs order = .ok st := by
  obtain ⟨objs⟩ := st
  simp only at hcl hmb hcc hf1 hf2 hf3
  refine ⟨?_, ?_, ?_, ?_⟩
  · unfold writeRemoveTest
    rw [write_fresh _ _ _ _ _ hb hcl]
    exact remove_head_fresh _ _ _ hcl
  · intro data
    unfold writeReadRemoveTest
    rw [write_fresh _ _ (.buffer data) _ data rfl hmb]
    have hread : (Store.mk (("MyBuffer", data) :: objs)).createReadStream
        "MyBuffer" = .ok data := by
      simp [Store.createReadStream, List.lookup]
    simp only [hread]
    exact remove_head_fresh _ _ _ hmb
  · unfold copyTest
    rw [write_fresh _ _ _ _ _ hb hcl]
    have hccA : (("CloudLogo", b) :: objs).lookup "CloudLogoCopy" = none := by
      simp [List.lookup, show ("CloudLogoCopy" == "CloudLogo") = false by
        decide, hcc]
    simp only [copy_fresh ⟨("CloudLogo", b) :: objs⟩ "CloudLogo"
      "CloudLogoCopy" b (by simp [List.lookup]) hccA]
    simp only [remove_head_fresh _ _ _ hccA]
    exact remove_head_fresh _ _ _ hcl
  · intro order hperm
    unfold listFilesSuite
    rw [write_fresh _ _ _ _ _ hb hf1]
    have hf2A : (("CloudLogo1", b) :: objs).lookup "CloudLogo2" = none := by
      simp [List.lookup, show ("CloudLogo2" == "CloudLogo1") = false by
        decide, hf2]
    simp only [copy_fresh ⟨("CloudLogo1", b) :: objs⟩ "CloudLogo1"
      "CloudLogo2" b (by simp [List.lookup]) hf2A]
    have hf3B : (("CloudLogo2", b) :: ("CloudLogo1", b) :: objs).lookup
        "CloudLogo3" = none := by
      simp [List.lookup, show ("CloudLogo3" == "CloudLogo2") = false by
        decide, show ("CloudLogo3" == "CloudLogo1") = false by decide, hf3]
    simp only [copy_fresh ⟨("CloudLogo2", b) :: ("CloudLogo1", b) :: objs⟩
      "CloudLogo1" "CloudLogo3" b
      (by simp [List.lookup,
        show ("CloudLogo1" == "CloudLogo2") = false by decide]) hf3B]
    have hnd : order.Nodup := hperm.nodup_iff.mpr (by decide)
    have hall : ∀ n ∈ order,
        ((("CloudLogo3", b) :: ("CloudLogo2", b) :: ("CloudLogo1", b) ::
          objs).lookup n).isSome := by
      intro n hn
      have hn3 : n ∈ ["CloudLogo1", "CloudLogo2", "CloudLogo3"] :=
        hperm.mem_iff.mp hn
      simp only [List.mem_cons, List.not_mem_nil, or_false] at hn3
      rcases hn3 with rfl | rfl | rfl
      · simp [List.lookup,
          show ("CloudLogo1" == "CloudLogo3") = false by decide,
          show ("CloudLogo1" == "CloudLogo2") = false by decide]
      · simp [List.lookup,
          show ("CloudLogo2" == "CloudLogo3") = false by decide]
      · simp [List.lookup]
    rw [removeSeq_filter order _ hnd hall]
    have hc : (fun e : String × Bytes => decide (e.1 ∉ order))
        = fun e => decide
            (e.1 ∉ (["CloudLogo1", "CloudLogo2", "CloudLogo3"] :
              List String)) := by
      funext e
      exact decide_eq_decide.mpr (by rw [hperm.mem_iff])
    rw [hc]
    have hobjs : objs.filter (fun e => decide
        (e.1 ∉ (["CloudLogo1", "CloudLogo2", "CloudLogo3"] :
          List String))) = objs := by
      refine List.filter_eq_self.mpr fun e he => ?_
      have hsome : (objs.lookup e.1).isSome = true :=
        (lookup_isSome_iff objs e.1).mpr (List.mem_map_of_mem Prod.fst he)
      refine decide_eq_true fun hmem => ?_
      simp only [List.mem_cons, List.not_mem_nil, or_false] at hmem
      rcases hmem with h | h | h
      · rw [h] at hsome
        rw [hf1] at hsome
        exact Bool.noConfusion hsome
      · rw [h] at hsome
        rw [hf2] at hsome
        exact Bool.noConfusion hsome
      · rw [h] at hsome
        rw [hf3] at hsome
        exact Bool.noConfusion hsome
    simp only [List.filter_cons]
    rw [hobjs]
    norm_num

/-- Witness for C9: on a concrete fresh bucket and filesystem, the
write/remove test, the buffer test, the copy test and the `list files`
block (after hook serialised in a rotated order) all restore the initial
bucket state. -/
theorem c9_cleanup_invariant_witness :
    writeRemoveTest ⟨[("keep", [1])]⟩ "CloudLogo" (.file pathToLogoFile)
        logoFs = .ok ⟨[("keep", [1])]⟩
    ∧ (∀ data : Bytes, writeReadRemoveTest ⟨[("keep", [1])]⟩ "MyBuffer"
        data logoFs = .ok ⟨[("keep", [1])]⟩)
    ∧ copyTest ⟨[("keep", [1])]⟩ "CloudLogo" "CloudLogoCopy"
        (.file pathToLogoFile) logoFs = .ok ⟨[("keep", [1])]⟩
    ∧ ∀ order : List String,
        order.Perm ["CloudLogo1", "CloudLogo2", "CloudLogo3"] →
        listFilesSuite ⟨[("keep", [1])]⟩ (.file pathToLogoFile) logoFs
          order = .ok ⟨[("keep", [1])]⟩ :=
  c9_cleanup_invariant ⟨[("keep", [1])]⟩ logoFs (.file pathToLogoFile)
    logoBytes (by decide) (by decide) (by decide) (by decide) (by decide)
    (by decide) (by decide)

end Storage
